import Mathlib

/-!
Verification of the optiland phase-profile / grid-interpolation subsystem.

Shallow embedding of:
  - optiland/phase/interpolators.py  (GridInterpolator, numpy and torch strategies)
  - optiland/phase/grid.py           (GridPhaseProfile)
  - optiland/phase/height_profile.py (HeightProfile)

Scalars are idealized as exact rationals; the wavelength-dependent phase
conversion, which involves the constant pi, is stated over the reals.
Fallible Python operations (exceptions) are modelled with Option / Except.
-/

set_option maxHeartbeats 1000000
set_option linter.unusedVariables false

/-- The process-wide numeric backend returned by be.get_backend().  Python
reports it as a string; backends other than numpy and torch are modelled by
the third constructor carrying the backend name. -/
inductive Backend where
  | numpy : Backend
  | torch : Backend
  | other : String → Backend
deriving DecidableEq, Repr

/-- Construction-time failures of GridInterpolator: the ValueError for an
unsupported backend, scipy's rejection of a mismatched grid shape, and the
IndexError raised by the torch setup when a coordinate axis is too short. -/
inductive InitError where
  | unsupportedBackend : InitError
  | shapeError : InitError
  | indexError : InitError
deriving DecidableEq, Repr

/-! ### Spline strategy (numpy backend)

Modelled from the spec: scipy.interpolate.RectBivariateSpline is an external
dependency, not part of this repository.  The spec describes it as a bicubic
interpolating spline: "a smooth interpolating surface fit through grid
samples with continuous first derivatives", evaluated together with its
order-1 partial derivatives.  We model it as the tensor-product piecewise
cubic Hermite interpolant with finite-difference node slopes: bicubic,
exactly interpolating at the nodes, and C1 across segment boundaries, as the
spec requires.  scipy validates that the value grid has shape
(len(y), len(x)) when the spline is fitted; that validation is part of the
model of its constructor. -/

/-- Cubic Hermite basis evaluation on the segment [t0, t1] with values
v0, v1 and endpoint slopes m0, m1, at parameter t. -/
def hermiteSeg (t0 v0 m0 t1 v1 m1 t : ℚ) : ℚ :=
  let h := t1 - t0
  let u := (t - t0) / h
  (2 * u ^ 3 - 3 * u ^ 2 + 1) * v0 + (u ^ 3 - 2 * u ^ 2 + u) * (h * m0)
    + (-2 * u ^ 3 + 3 * u ^ 2) * v1 + (u ^ 3 - u ^ 2) * (h * m1)

/-- Derivative in t of hermiteSeg on the segment [t0, t1]. -/
def hermiteSegD (t0 v0 m0 t1 v1 m1 t : ℚ) : ℚ :=
  let h := t1 - t0
  let u := (t - t0) / h
  ((6 * u ^ 2 - 6 * u) * v0 + (3 * u ^ 2 - 4 * u + 1) * (h * m0)
    + (-6 * u ^ 2 + 6 * u) * v1 + (3 * u ^ 2 - 2 * u) * (h * m1)) / h

/-- Evaluate the piecewise cubic over a node list of (knot, value, slope)
triples: the segment whose knot interval contains t is used, with the first
and last segments extrapolating beyond the knot range. -/
def evalSegs : List (ℚ × ℚ × ℚ) → ℚ → ℚ
  | [], _ => 0
  | [(_, v0, _)], _ => v0
  | [(t0, v0, m0), (t1, v1, m1)], t => hermiteSeg t0 v0 m0 t1 v1 m1 t
  | (t0, v0, m0) :: (t1, v1, m1) :: c :: rest, t =>
    if t < t1 then hermiteSeg t0 v0 m0 t1 v1 m1 t
    else evalSegs ((t1, v1, m1) :: c :: rest) t

/-- Piecewise derivative of evalSegs. -/
def evalSegsD : List (ℚ × ℚ × ℚ) → ℚ → ℚ
  | [], _ => 0
  | [_], _ => 0
  | [(t0, v0, m0), (t1, v1, m1)], t => hermiteSegD t0 v0 m0 t1 v1 m1 t
  | (t0, v0, m0) :: (t1, v1, m1) :: c :: rest, t =>
    if t < t1 then hermiteSegD t0 v0 m0 t1 v1 m1 t
    else evalSegsD ((t1, v1, m1) :: c :: rest) t

/-- Finite-difference node slopes (centered in the interior, one-sided at the
two ends), giving the C1 interpolant its derivative data. -/
def fdSlopes (knots values : List ℚ) : List ℚ :=
  (List.range values.length).map fun i =>
    let il := i - 1
    let ir := min (i + 1) (values.length - 1)
    (values.getD ir 0 - values.getD il 0) / (knots.getD ir 0 - knots.getD il 0)

/-- Pair each knot with its value and slope. -/
def mkSegs (knots values : List ℚ) : List (ℚ × ℚ × ℚ) :=
  knots.zip (values.zip (fdSlopes knots values))

/-- One-dimensional spline evaluation through (knots, values). -/
def spline1D (knots values : List ℚ) (t : ℚ) : ℚ :=
  evalSegs (mkSegs knots values) t

/-- Derivative of the one-dimensional spline. -/
def spline1Dd (knots values : List ℚ) (t : ℚ) : ℚ :=
  evalSegsD (mkSegs knots values) t

/-- The fitted spline state held by the numpy strategy: the grid data the
surface was fitted through (self._spline). -/
structure Spline2D where
  xs : List ℚ
  ys : List ℚ
  grid : List (List ℚ)
deriving DecidableEq, Repr

/-- Modelled from the spec: the RectBivariateSpline constructor.  scipy is
called as RectBivariateSpline(y, x, grid) and rejects a grid whose shape is
not (len(y), len(x)). -/
def rectBivariateSplineInit (ys xs : List ℚ) (grid : List (List ℚ)) :
    Option Spline2D :=
  if grid.length = ys.length ∧ ∀ r ∈ grid, r.length = xs.length then
    some ⟨xs, ys, grid⟩
  else none

/-- spline.ev(y, x): tensor-product evaluation, splining each grid row in x
and then the resulting column in y. -/
def Spline2D.ev (s : Spline2D) (x y : ℚ) : ℚ :=
  spline1D s.ys (s.grid.map fun row => spline1D s.xs row x) y

/-- spline.ev(y, x, dy=1): order-1 partial derivative in the x direction
(scipy's second coordinate). -/
def Spline2D.evDx (s : Spline2D) (x y : ℚ) : ℚ :=
  spline1D s.ys (s.grid.map fun row => spline1Dd s.xs row x) y

/-- spline.ev(y, x, dx=1): order-1 partial derivative in the y direction
(scipy's first coordinate). -/
def Spline2D.evDy (s : Spline2D) (x y : ℚ) : ℚ :=
  spline1Dd s.ys (s.grid.map fun row => spline1D s.xs row x) y

/-! ### Sampling strategy (torch backend) -/

/-- State built by GridInterpolator._setup_torch: the axis bounds
(_xmin, _xmax, _ymin, _ymax), the first grid steps (_dx, _dy, stored but
unused by evaluation), and the sampling tensor _grid_4d, whose content is the
2D grid itself. -/
structure TorchInterp where
  xmin : ℚ
  xmax : ℚ
  ymin : ℚ
  ymax : ℚ
  dx : ℚ
  dy : ℚ
  grid : List (List ℚ)
deriving DecidableEq, Repr

/-- _setup_torch: reads x_coords[0], x_coords[-1], y_coords[0], y_coords[-1],
reshapes the grid, then reads x_coords[1] and y_coords[1]; any missing index
is a construction-time IndexError, modelled by none. -/
def torchSetup (x_coords y_coords : List ℚ) (grid : List (List ℚ)) :
    Option TorchInterp :=
  match x_coords.head?, x_coords.getLast?, y_coords.head?, y_coords.getLast?,
      x_coords[1]?, y_coords[1]? with
  | some xmin, some xmax, some ymin, some ymax, some x1, some y1 =>
    some ⟨xmin, xmax, ymin, ymax, x1 - xmin, y1 - ymin, grid⟩
  | _, _, _, _, _, _ => none

/-- Pixel fetch with the zeros padding of grid_sample: out-of-range indices
contribute the value 0. -/
def getPix (g : List (List ℚ)) (ix iy : ℤ) : ℚ :=
  if 0 ≤ ix ∧ 0 ≤ iy then (g.getD iy.toNat []).getD ix.toNat 0 else 0

/-- Modelled from the spec: torch.nn.functional.grid_sample (external
dependency) in bilinear mode with align_corners=True, the spec's
corner-aligned sampling: a normalized coordinate of -1 or 1 maps exactly to
the extreme pixel of the axis, pixel position (u + 1) / 2 * (size - 1), and
the four surrounding pixels are blended bilinearly. -/
def gridSampleBilinear (g : List (List ℚ)) (xn yn : ℚ) : ℚ :=
  let W : ℕ := (g.headD []).length
  let H : ℕ := g.length
  let ix : ℚ := (xn + 1) / 2 * ((W : ℚ) - 1)
  let iy : ℚ := (yn + 1) / 2 * ((H : ℚ) - 1)
  let x0 : ℤ := ⌊ix⌋
  let y0 : ℤ := ⌊iy⌋
  let wx : ℚ := ix - (x0 : ℚ)
  let wy : ℚ := iy - (y0 : ℚ)
  (1 - wx) * (1 - wy) * getPix g x0 y0
    + wx * (1 - wy) * getPix g (x0 + 1) y0
    + (1 - wx) * wy * getPix g x0 (y0 + 1)
    + wx * wy * getPix g (x0 + 1) (y0 + 1)

/-- The torch height_fn: normalize the query point to [-1, 1] on each axis
using only the grid's min/max bounds, then bilinearly sample the grid. -/
def torchHeight (ti : TorchInterp) (x y : ℚ) : ℚ :=
  let xn := 2 * (x - ti.xmin) / (ti.xmax - ti.xmin) - 1
  let yn := 2 * (y - ti.ymin) / (ti.ymax - ti.ymin) - 1
  gridSampleBilinear ti.grid xn yn

/-- The torch grad_fn: autograd through height_fn.  Backpropagation through
bilinear grid_sample yields the corner-difference derivative with respect to
the pixel coordinate, scaled by the chain-rule factor of the normalization,
(size - 1) / (max - min) on each axis. -/
def torchGrad (ti : TorchInterp) (x y : ℚ) : ℚ × ℚ :=
  let g := ti.grid
  let W : ℕ := (g.headD []).length
  let H : ℕ := g.length
  let xn := 2 * (x - ti.xmin) / (ti.xmax - ti.xmin) - 1
  let yn := 2 * (y - ti.ymin) / (ti.ymax - ti.ymin) - 1
  let ix : ℚ := (xn + 1) / 2 * ((W : ℚ) - 1)
  let iy : ℚ := (yn + 1) / 2 * ((H : ℚ) - 1)
  let x0 : ℤ := ⌊ix⌋
  let y0 : ℤ := ⌊iy⌋
  let wx : ℚ := ix - (x0 : ℚ)
  let wy : ℚ := iy - (y0 : ℚ)
  let dS_dix : ℚ :=
    (1 - wy) * (getPix g (x0 + 1) y0 - getPix g x0 y0)
      + wy * (getPix g (x0 + 1) (y0 + 1) - getPix g x0 (y0 + 1))
  let dS_diy : ℚ :=
    (1 - wx) * (getPix g x0 (y0 + 1) - getPix g x0 y0)
      + wx * (getPix g (x0 + 1) (y0 + 1) - getPix g (x0 + 1) y0)
  (dS_dix * (((W : ℚ) - 1) / (ti.xmax - ti.xmin)),
    dS_diy * (((H : ℚ) - 1) / (ti.ymax - ti.ymin)))

/-! ### GridInterpolator -/

/-- A constructed GridInterpolator: the strategy-specific state selected at
construction. -/
inductive Interp where
  | numpy : Spline2D → Interp
  | torch : TorchInterp → Interp
deriving DecidableEq, Repr

/-- GridInterpolator.__init__: the backend is looked up first and an
unsupported backend raises ValueError before any backend setup runs; then
the selected setup is performed.  Note that no shape validation of the grid
against the coordinate lengths is performed by this constructor itself. -/
def mkGridInterpolator (b : Backend) (x_coords y_coords : List ℚ)
    (grid : List (List ℚ)) : Except InitError Interp :=
  match b with
  | .other _ => .error .unsupportedBackend
  | .numpy =>
    match rectBivariateSplineInit y_coords x_coords grid with
    | some s => .ok (.numpy s)
    | none => .error .shapeError
  | .torch =>
    match torchSetup x_coords y_coords grid with
    | some ti => .ok (.torch ti)
    | none => .error .indexError

/-- GridInterpolator.height. -/
def interpHeight : Interp → ℚ → ℚ → ℚ
  | .numpy s, x, y => s.ev x y
  | .torch ti, x, y => torchHeight ti x y

/-- GridInterpolator.gradient. -/
def interpGradient : Interp → ℚ → ℚ → ℚ × ℚ
  | .numpy s, x, y => (s.evDx x y, s.evDy x y)
  | .torch ti, x, y => torchGrad ti x y

/-- Construct a GridInterpolator under backend b and sample its height at
one point; none when construction fails. -/
def interpHeightAt (b : Backend) (x_coords y_coords : List ℚ)
    (grid : List (List ℚ)) (x y : ℚ) : Option ℚ :=
  match mkGridInterpolator b x_coords y_coords grid with
  | .ok it => some (interpHeight it x y)
  | .error _ => none

/-! ### Phase profiles -/

/-- A phase profile defined by a grid of phase values (grid.py).  Fields
mirror the attributes set by GridPhaseProfile.__init__; interp is the cached
GridInterpolator. -/
structure GridPhaseProfile where
  backend : Backend
  x_coords : List ℚ
  y_coords : List ℚ
  phase_grid : List (List ℚ)
  interp : Interp
deriving DecidableEq, Repr

/-- GridPhaseProfile.__init__: stores the grid data and constructs the
interpolator; any interpolator construction failure propagates. -/
def GridPhaseProfile.make (b : Backend) (x_coords y_coords : List ℚ)
    (phase_grid : List (List ℚ)) : Except InitError GridPhaseProfile :=
  match mkGridInterpolator b x_coords y_coords phase_grid with
  | .ok it => .ok ⟨b, x_coords, y_coords, phase_grid, it⟩
  | .error e => .error e

/-- GridPhaseProfile.get_phase: the interpolated grid value; the wavelength
argument (default None) is ignored. -/
def GridPhaseProfile.get_phase (p : GridPhaseProfile) (x y : ℚ)
    (wavelength : Option ℝ) : ℚ :=
  interpHeight p.interp x y

/-- GridPhaseProfile.get_gradient: the interpolated gradient with a zero z
component; wavelength is ignored. -/
def GridPhaseProfile.get_gradient (p : GridPhaseProfile) (x y : ℚ)
    (wavelength : Option ℝ) : ℚ × ℚ × ℚ :=
  ((interpGradient p.interp x y).1, (interpGradient p.interp x y).2, 0)

/-- GridPhaseProfile.get_paraxial_gradient: the y partial of the gradient
evaluated at x = 0; wavelength is ignored. -/
def GridPhaseProfile.get_paraxial_gradient (p : GridPhaseProfile) (y : ℚ)
    (wavelength : Option ℝ) : ℚ :=
  (interpGradient p.interp 0 y).2

/-- The serialized form of a GridPhaseProfile (section 6 of the spec): the
phase_type discriminator plus the coordinate and grid data as plain
sequences. -/
structure GridProfileDict where
  phase_type : String
  x_coords : List ℚ
  y_coords : List ℚ
  phase_grid : List (List ℚ)
deriving DecidableEq, Repr

/-- GridPhaseProfile.to_dict.  The phase_type entry is modelled from the
spec: it is emitted by BasePhaseProfile.to_dict (optiland/phase/base.py, not
in src/), which writes the class discriminator "grid". -/
def GridPhaseProfile.to_dict (p : GridPhaseProfile) : GridProfileDict :=
  ⟨"grid", p.x_coords, p.y_coords, p.phase_grid⟩

/-- GridPhaseProfile.from_dict: rebuilds the profile from the stored arrays
under the active backend. -/
def GridPhaseProfile.from_dict (b : Backend) (d : GridProfileDict) :
    Except InitError GridPhaseProfile :=
  GridPhaseProfile.make b d.x_coords d.y_coords d.phase_grid

/-- A live material capability: its name attribute and its dispersion
function n(wavelength), wavelength in micrometers. -/
structure Material where
  name : String
  n : ℝ → ℝ

/-- The material reference held by a HeightProfile: either a live Material
object, or (after from_dict) a bare name string, which has no n method. -/
inductive MaterialRef where
  | live : Material → MaterialRef
  | nameOnly : String → MaterialRef

/-- material.n(wavelength): succeeds on a live material and fails
(AttributeError) on a bare string. -/
def MaterialRef.n : MaterialRef → ℝ → Option ℝ
  | .live m, wl => some (m.n wl)
  | .nameOnly _, _ => none

/-- getattr(material, "name", str(material)): the live material's name, or
the string itself. -/
def MaterialRef.nameOf : MaterialRef → String
  | .live m => m.name
  | .nameOnly s => s

/-- A phase profile defined by a height map and a dispersive material
(height_profile.py). -/
structure HeightProfile where
  backend : Backend
  x_coords : List ℚ
  y_coords : List ℚ
  height_map : List (List ℚ)
  material : MaterialRef
  interp : Interp

/-- HeightProfile.__init__. -/
def HeightProfile.make (b : Backend) (x_coords y_coords : List ℚ)
    (height_map : List (List ℚ)) (material : MaterialRef) :
    Except InitError HeightProfile :=
  match mkGridInterpolator b x_coords y_coords height_map with
  | .ok it => .ok ⟨b, x_coords, y_coords, height_map, material, it⟩
  | .error e => .error e

/-- HeightProfile.get_phase: 2 * pi / (wavelength * 1e-3) * (n - 1) * h,
with the interpolated height h; none models the AttributeError raised when
material.n does not exist (material is a bare string). -/
noncomputable def HeightProfile.get_phase (p : HeightProfile) (x y : ℚ)
    (wavelength : ℝ) : Option ℝ :=
  (p.material.n wavelength).map fun n =>
    2 * Real.pi / (wavelength * (1 / 1000)) * (n - 1) *
      ((interpHeight p.interp x y : ℚ) : ℝ)

/-- HeightProfile.get_gradient: the interpolated height gradient scaled by
the factor 2 * pi / (wavelength * 1e-3) * (n - 1), with a zero z
component. -/
noncomputable def HeightProfile.get_gradient (p : HeightProfile) (x y : ℚ)
    (wavelength : ℝ) : Option (ℝ × ℝ × ℝ) :=
  (p.material.n wavelength).map fun n =>
    let dh := interpGradient p.interp x y
    let factor := 2 * Real.pi / (wavelength * (1 / 1000)) * (n - 1)
    (factor * ((dh.1 : ℚ) : ℝ), factor * ((dh.2 : ℚ) : ℝ), 0)

/-- HeightProfile.get_paraxial_gradient: the y partial of the height
gradient at x = 0, scaled by the same factor. -/
noncomputable def HeightProfile.get_paraxial_gradient (p : HeightProfile)
    (y : ℚ) (wavelength : ℝ) : Option ℝ :=
  (p.material.n wavelength).map fun n =>
    2 * Real.pi / (wavelength * (1 / 1000)) * (n - 1) *
      (((interpGradient p.interp 0 y).2 : ℚ) : ℝ)

/-- The serialized form of a HeightProfile: phase_type discriminator,
coordinate and height data, and the material reduced to a name string. -/
structure HeightProfileDict where
  phase_type : String
  x_coords : List ℚ
  y_coords : List ℚ
  height_map : List (List ℚ)
  material : String
deriving DecidableEq, Repr

/-- HeightProfile.to_dict: serializes the material as
getattr(material, "name", str(material)).  The phase_type entry is modelled
from the spec (BasePhaseProfile.to_dict, base.py not in src/). -/
def HeightProfile.to_dict (p : HeightProfile) : HeightProfileDict :=
  ⟨"height_profile", p.x_coords, p.y_coords, p.height_map, p.material.nameOf⟩

/-- HeightProfile.from_dict: passes the stored material string unchanged as
the material argument of the constructor. -/
def HeightProfile.from_dict (b : Backend) (d : HeightProfileDict) :
    Except InitError HeightProfile :=
  HeightProfile.make b d.x_coords d.y_coords d.height_map
    (.nameOnly d.material)

/-! ### Concrete instances used by the witnesses -/

/-- A concrete ideal material with constant refractive index 3/2. -/
noncomputable def exMat : Material := ⟨"IdealGlass", fun _ => 3 / 2⟩

/-- A concrete 2x2 grid phase profile under the torch backend (the dx, dy
fields are written 1 - 0 so that the structure is literally the one built by
torchSetup). -/
def exGP : GridPhaseProfile :=
  ⟨.torch, [0, 1], [0, 1], [[1, 2], [3, 4]],
    .torch ⟨0, 1, 0, 1, 1 - 0, 1 - 0, [[1, 2], [3, 4]]⟩⟩

/-- A concrete constant height map profile (height 3/10 everywhere) with a
live material, under the torch backend. -/
noncomputable def exHP : HeightProfile :=
  ⟨.torch, [0, 1], [0, 1], [[3 / 10, 3 / 10], [3 / 10, 3 / 10]],
    .live exMat,
    .torch ⟨0, 1, 0, 1, 1 - 0, 1 - 0, [[3 / 10, 3 / 10], [3 / 10, 3 / 10]]⟩⟩

/-- The gradient triple exHP produces at the origin for wavelength 1. -/
noncomputable def exTriple : ℝ × ℝ × ℝ :=
  (exHP.get_gradient 0 0 1).getD (0, 0, 0)

/-! ### Claim theorems -/

/-- C7: if the active backend is neither numpy nor torch, GridInterpolator
construction fails with the unsupported-backend ValueError, for every grid,
before any backend-specific processing; no interpolator is produced. -/
theorem c7_unsupported_backend :
    ∀ (s : String) (xs ys : List ℚ) (g : List (List ℚ)),
      mkGridInterpolator (.other s) xs ys g =
        .error .unsupportedBackend :=
  fun _ _ _ _ => rfl

/-- C6: for a GridPhaseProfile the wavelength argument has no effect on
get_phase, get_gradient or get_paraxial_gradient (including the None
default), and get_phase equals the interpolated height. -/
theorem c6_wavelength_irrelevant :
    ∀ (p : GridPhaseProfile) (x y : ℚ) (w1 w2 : Option ℝ),
      p.get_phase x y w1 = p.get_phase x y w2 ∧
      p.get_gradient x y w1 = p.get_gradient x y w2 ∧
      (∀ yy : ℚ, p.get_paraxial_gradient yy w1 =
        p.get_paraxial_gradient yy w2) ∧
      p.get_phase x y w1 = interpHeight p.interp x y :=
  fun _ _ _ _ _ => ⟨rfl, rfl, fun _ => rfl, rfl⟩

/-- C5: for both profile variants, the paraxial gradient equals the y
component of the full gradient evaluated at x = 0. -/
theorem c5_paraxial_consistency :
    (∀ (p : GridPhaseProfile) (y : ℚ) (w : Option ℝ),
      p.get_paraxial_gradient y w = (p.get_gradient 0 y w).2.1) ∧
    (∀ (p : HeightProfile) (y : ℚ) (wl : ℝ),
      p.get_paraxial_gradient y wl =
        (p.get_gradient 0 y wl).map fun t => t.2.1) := by
  refine ⟨fun p y w => rfl, fun p y wl => ?_⟩
  unfold HeightProfile.get_paraxial_gradient HeightProfile.get_gradient
  cases p.material.n wl <;> rfl

/-- C8: for both profile variants, the z component of the returned gradient
triple is zero. -/
theorem c8_gradient_z_zero :
    (∀ (p : GridPhaseProfile) (x y : ℚ) (w : Option ℝ),
      (p.get_gradient x y w).2.2 = 0) ∧
    (∀ (p : HeightProfile) (x y : ℚ) (wl : ℝ) (t : ℝ × ℝ × ℝ),
      p.get_gradient x y wl = some t → t.2.2 = 0) := by
  refine ⟨fun _ _ _ _ => rfl, fun p x y wl t h => ?_⟩
  unfold HeightProfile.get_gradient at h
  rcases hm : p.material.n wl with _ | n <;> rw [hm] at h
  · exact absurd h (by simp)
  · rw [Option.map_some'] at h
    obtain rfl : _ = t := Option.some.inj h
    rfl

/-- Witness for C8 at a concrete profile and input. -/
theorem c8_gradient_z_zero_witness :
    exHP.get_gradient 0 0 1 = some exTriple ∧ exTriple.2.2 = 0 :=
  ⟨rfl, c8_gradient_z_zero.2 exHP 0 0 1 exTriple rfl⟩

/-- C3: a HeightProfile with a live material converts the interpolated
height h to phase exactly as 2 pi / (wavelength * 1e-3) * (n - 1) * h, the
wavelength being given in micrometers. -/
theorem c3_phase_formula (p : HeightProfile) (M : Material)
    (hm : p.material = .live M) (x y : ℚ) (wavelength : ℝ) :
    p.get_phase x y wavelength =
      some (2 * Real.pi / (wavelength * (1 / 1000)) * (M.n wavelength - 1) *
        ((interpHeight p.interp x y : ℚ) : ℝ)) := by
  unfold HeightProfile.get_phase
  rw [hm]
  rfl

/-- Witness for C3: a constant height map of 3/10 with n = 3/2 at
wavelength 1 micrometer, matching the spec's worked example. -/
theorem c3_phase_formula_witness :
    interpHeight exHP.interp 0 0 = 3 / 10 ∧
    exHP.get_phase 0 0 1 =
      some (2 * Real.pi / ((1 : ℝ) * (1 / 1000)) * (exMat.n 1 - 1) *
        ((interpHeight exHP.interp 0 0 : ℚ) : ℝ)) :=
  ⟨by simp only [exHP, interpHeight, torchHeight, gridSampleBilinear, getPix]
      norm_num,
   c3_phase_formula exHP exMat rfl 0 0 1⟩

/-- C2 (divergence witness): GridInterpolator.__init__ performs no explicit
grid shape validation; under the torch backend, construction succeeds on a
3x3 grid supplied with 2-element coordinate axes. -/
theorem c2_no_shape_check :
    mkGridInterpolator .torch [0, 1] [0, 1]
        [[1, 2, 3], [4, 5, 6], [7, 8, 9]] =
      .ok (.torch ⟨0, 1, 0, 1, 1 - 0, 1 - 0,
        [[1, 2, 3], [4, 5, 6], [7, 8, 9]]⟩) ∧
    ([[1, 2, 3], [4, 5, 6], [7, 8, 9]] : List (List ℚ)).length ≠
      ([0, 1] : List ℚ).length :=
  ⟨rfl, by decide⟩

/-- C4: rebuilding a constructed profile from its serialized form under the
same backend reproduces equal coordinate and grid data; for HeightProfile
the material is replaced by its bare name string (material identity is
excepted from the round trip). -/
theorem c4_roundtrip :
    (∀ (b : Backend) (xs ys : List ℚ) (g : List (List ℚ))
      (p : GridPhaseProfile),
      GridPhaseProfile.make b xs ys g = .ok p →
      GridPhaseProfile.from_dict b p.to_dict = .ok p) ∧
    (∀ (b : Backend) (xs ys : List ℚ) (hmap : List (List ℚ))
      (m : MaterialRef) (p : HeightProfile),
      HeightProfile.make b xs ys hmap m = .ok p →
      HeightProfile.from_dict b p.to_dict =
        .ok ⟨b, p.x_coords, p.y_coords, p.height_map,
          .nameOnly p.material.nameOf, p.interp⟩) := by
  constructor
  · intro b xs ys g p h
    unfold GridPhaseProfile.make at h
    rcases hmk : mkGridInterpolator b xs ys g with e | it <;> rw [hmk] at h
    · exact Except.noConfusion h
    · obtain rfl := Except.ok.inj h
      unfold GridPhaseProfile.from_dict GridPhaseProfile.to_dict
        GridPhaseProfile.make
      rw [hmk]
  · intro b xs ys hmap m p h
    unfold HeightProfile.make at h
    rcases hmk : mkGridInterpolator b xs ys hmap with e | it <;> rw [hmk] at h
    · exact Except.noConfusion h
    · obtain rfl := Except.ok.inj h
      unfold HeightProfile.from_dict HeightProfile.to_dict HeightProfile.make
      rw [hmk]

/-- Witness for C4 at concrete torch-backend profiles. -/
theorem c4_roundtrip_witness :
    GridPhaseProfile.from_dict .torch exGP.to_dict = .ok exGP ∧
    HeightProfile.from_dict .torch exHP.to_dict =
      .ok ⟨.torch, exHP.x_coords, exHP.y_coords, exHP.height_map,
        .nameOnly exHP.material.nameOf, exHP.interp⟩ :=
  ⟨c4_roundtrip.1 .torch [0, 1] [0, 1] [[1, 2], [3, 4]] exGP rfl,
   c4_roundtrip.2 .torch [0, 1] [0, 1] [[3 / 10, 3 / 10], [3 / 10, 3 / 10]]
     (.live exMat) exHP rfl⟩

/-- C10: a HeightProfile serializes its material as a name string; from_dict
passes that string on unchanged, construction of the deserialized profile
succeeds, and every later evaluation fails because a bare string has no
dispersion method. -/
theorem c10_material_roundtrip_gap :
    ∀ (b : Backend) (xs ys : List ℚ) (hmap : List (List ℚ)) (M : Material)
      (p : HeightProfile),
      HeightProfile.make b xs ys hmap (.live M) = .ok p →
      p.to_dict.material = M.name ∧
      HeightProfile.from_dict b p.to_dict =
        .ok ⟨b, xs, ys, hmap, .nameOnly M.name, p.interp⟩ ∧
      ∀ (q : HeightProfile), q.material = .nameOnly M.name →
        ∀ (x y : ℚ) (wl : ℝ),
          q.get_phase x y wl = none ∧
          q.get_gradient x y wl = none ∧
          q.get_paraxial_gradient y wl = none := by
  intro b xs ys hmap M p h
  unfold HeightProfile.make at h
  rcases hmk : mkGridInterpolator b xs ys hmap with e | it <;> rw [hmk] at h
  · exact Except.noConfusion h
  · obtain rfl := Except.ok.inj h
    refine ⟨rfl, ?_, ?_⟩
    · unfold HeightProfile.from_dict HeightProfile.to_dict HeightProfile.make
      rw [hmk]
      rfl
    · intro q hq x y wl
      unfold HeightProfile.get_phase HeightProfile.get_gradient
        HeightProfile.get_paraxial_gradient
      rw [hq]
      exact ⟨rfl, rfl, rfl⟩

/-- Witness for C10: the concrete profile exHP round-trips into a profile
holding only the material name, whose get_phase then fails. -/
theorem c10_material_roundtrip_gap_witness :
    exHP.to_dict.material = exMat.name ∧
    HeightProfile.from_dict .torch exHP.to_dict =
      .ok ⟨.torch, [0, 1], [0, 1], [[3 / 10, 3 / 10], [3 / 10, 3 / 10]],
        .nameOnly exMat.name, exHP.interp⟩ ∧
    HeightProfile.get_phase
      ⟨.torch, [0, 1], [0, 1], [[3 / 10, 3 / 10], [3 / 10, 3 / 10]],
        .nameOnly exMat.name, exHP.interp⟩ 0 0 1 = none := by
  have h := c10_material_roundtrip_gap .torch [0, 1] [0, 1]
    [[3 / 10, 3 / 10], [3 / 10, 3 / 10]] exMat exHP rfl
  exact ⟨h.1, h.2.1, (h.2.2 _ rfl 0 0 1).1⟩

/-- The torch setup succeeds exactly when each axis has at least two
entries. -/
theorem torchSetup_isSome_iff :
    ∀ (xs ys : List ℚ) (g : List (List ℚ)),
      (torchSetup xs ys g).isSome = true ↔
        2 ≤ xs.length ∧ 2 ≤ ys.length := by
  intro xs ys g
  constructor
  · intro h
    rcases h1 : xs.head? with _ | a <;>
      rcases h2 : xs.getLast? with _ | b <;>
      rcases h3 : ys.head? with _ | c <;>
      rcases h4 : ys.getLast? with _ | d <;>
      rcases h5 : xs[1]? with _ | e <;>
      rcases h6 : ys[1]? with _ | f <;>
      simp [torchSetup, h1, h2, h3, h4, h5, h6] at h
    obtain ⟨hx, -⟩ := List.getElem?_eq_some.mp h5
    obtain ⟨hy, -⟩ := List.getElem?_eq_some.mp h6
    exact ⟨by omega, by omega⟩
  · rintro ⟨hx, hy⟩
    have hxne : xs ≠ [] := by
      intro hn; rw [hn] at hx; simp at hx
    have hyne : ys ≠ [] := by
      intro hn; rw [hn] at hy; simp at hy
    obtain ⟨a, h1⟩ := Option.isSome_iff_exists.mp
      (by rw [List.head?_isSome]; exact hxne)
    obtain ⟨b, h2⟩ := Option.isSome_iff_exists.mp
      (List.getLast?_isSome.mpr hxne)
    obtain ⟨c, h3⟩ := Option.isSome_iff_exists.mp
      (by rw [List.head?_isSome]; exact hyne)
    obtain ⟨d, h4⟩ := Option.isSome_iff_exists.mp
      (List.getLast?_isSome.mpr hyne)
    have h5 : xs[1]? = some (xs.get ⟨1, by omega⟩) := by
      rw [List.getElem?_eq_getElem (by omega)]
      simp [List.get_eq_getElem]
    have h6 : ys[1]? = some (ys.get ⟨1, by omega⟩) := by
      rw [List.getElem?_eq_getElem (by omega)]
      simp [List.get_eq_getElem]
    simp only [torchSetup, h1, h2, h3, h4, h5, h6, Option.isSome]

/-! ### Node-exactness infrastructure for the spline strategy -/

/-- A Hermite segment reproduces its left node value, whatever the slopes. -/
theorem hermiteSeg_left (t0 v0 m0 t1 v1 m1 : ℚ) :
    hermiteSeg t0 v0 m0 t1 v1 m1 t0 = v0 := by
  simp only [hermiteSeg]
  norm_num

/-- A Hermite segment reproduces its right node value when the segment is
nondegenerate. -/
theorem hermiteSeg_right (t0 v0 m0 t1 v1 m1 : ℚ) (hne : t0 ≠ t1) :
    hermiteSeg t0 v0 m0 t1 v1 m1 t1 = v1 := by
  simp only [hermiteSeg]
  rw [div_self (sub_ne_zero.mpr (Ne.symm hne))]
  ring

/-- In a knot-sorted node list, the head knot is at most any listed knot. -/
theorem pairwise_fst_head_le (b : ℚ × ℚ × ℚ) (tl : List (ℚ × ℚ × ℚ))
    (hp : (b :: tl).Pairwise (fun p q => p.1 < q.1)) (j : ℕ)
    (hj : j < (b :: tl).length) :
    b.1 ≤ ((b :: tl).get ⟨j, hj⟩).1 := by
  cases j with
  | zero => exact le_rfl
  | succ k =>
    rw [List.get_cons_succ]
    exact le_of_lt ((List.pairwise_cons.mp hp).1 _ (List.get_mem _ _ _))

/-- The piecewise Hermite evaluation reproduces every node value of a
knot-sorted node list, independently of the stored slopes. -/
theorem evalSegs_node :
    ∀ (l : List (ℚ × ℚ × ℚ)),
      l.Pairwise (fun p q : ℚ × ℚ × ℚ => p.1 < q.1) →
      ∀ (i : ℕ) (hi : i < l.length),
        evalSegs l (l.get ⟨i, hi⟩).1 = (l.get ⟨i, hi⟩).2.1 := by
  intro l
  induction l with
  | nil => intro _ i hi; simp at hi
  | cons a tl ih =>
    intro hp i hi
    rcases tl with _ | ⟨b, tl2⟩
    · obtain ⟨t0, v0, m0⟩ := a
      cases i with
      | zero => rfl
      | succ j => simp at hi
    · have hab : a.1 < b.1 := (List.pairwise_cons.mp hp).1 b (by simp)
      cases i with
      | zero =>
        obtain ⟨t0, v0, m0⟩ := a
        obtain ⟨t1, v1, m1⟩ := b
        rcases tl2 with _ | ⟨c, tl3⟩
        · exact hermiteSeg_left t0 v0 m0 t1 v1 m1
        · show (if t0 < t1 then hermiteSeg t0 v0 m0 t1 v1 m1 t0
              else evalSegs ((t1, v1, m1) :: c :: tl3) t0) = v0
          rw [if_pos hab]
          exact hermiteSeg_left t0 v0 m0 t1 v1 m1
      | succ j =>
        have hj2 : j < (b :: tl2).length := by
          simpa using Nat.lt_of_succ_lt_succ hi
        rw [List.get_cons_succ]
        have hble : b.1 ≤ ((b :: tl2).get ⟨j, hj2⟩).1 :=
          pairwise_fst_head_le b tl2 (List.Pairwise.of_cons hp) j hj2
        have htail := ih (List.Pairwise.of_cons hp) j hj2
        rcases tl2 with _ | ⟨c, tl3⟩
        · obtain ⟨t0, v0, m0⟩ := a
          obtain ⟨t1, v1, m1⟩ := b
          cases j with
          | zero => exact hermiteSeg_right t0 v0 m0 t1 v1 m1 (ne_of_lt hab)
          | succ k => simp at hj2
        · obtain ⟨t0, v0, m0⟩ := a
          obtain ⟨t1, v1, m1⟩ := b
          have hcond :
              ¬ ((((t1, v1, m1) :: c :: tl3).get ⟨j, hj2⟩).1 < t1) :=
            not_lt.mpr hble
          show (if (((t1, v1, m1) :: c :: tl3).get ⟨j, hj2⟩).1 < t1
              then hermiteSeg t0 v0 m0 t1 v1 m1 _
              else evalSegs ((t1, v1, m1) :: c :: tl3) _) = _
          rw [if_neg hcond]
          exact htail

/-- fdSlopes produces one slope per value. -/
theorem fdSlopes_length (knots values : List ℚ) :
    (fdSlopes knots values).length = values.length := by
  unfold fdSlopes
  simp

/-- mkSegs pairs every knot when the value list has matching length. -/
theorem mkSegs_length (knots values : List ℚ)
    (hlen : values.length = knots.length) :
    (mkSegs knots values).length = knots.length := by
  unfold mkSegs
  simp [fdSlopes_length, hlen]

/-- The i-th node triple of mkSegs. -/
theorem mkSegs_get (knots values : List ℚ)
    (hlen : values.length = knots.length) (i : ℕ) (hik : i < knots.length)
    (hms : i < (mkSegs knots values).length) :
    (mkSegs knots values).get ⟨i, hms⟩ =
      (knots.getD i 0, values.getD i 0,
        (fdSlopes knots values).getD i 0) := by
  have h1 : i < values.length := by omega
  have h2 : i < (fdSlopes knots values).length := by
    rw [fdSlopes_length]; omega
  rw [List.get_eq_getElem]
  rw [List.getD_eq_getElem knots 0 hik, List.getD_eq_getElem values 0 h1,
    List.getD_eq_getElem _ 0 h2]
  unfold mkSegs
  rw [List.getElem_zip, List.getElem_zip]

/-- One-dimensional node exactness of the modelled spline. -/
theorem spline1D_node (knots values : List ℚ)
    (hlen : values.length = knots.length)
    (hs : knots.Pairwise (· < ·)) (i : ℕ) (hik : i < knots.length) :
    spline1D knots values (knots.getD i 0) = values.getD i 0 := by
  have hms : i < (mkSegs knots values).length := by
    rw [mkSegs_length knots values hlen]; exact hik
  have hmapfst : (mkSegs knots values).map Prod.fst = knots := by
    unfold mkSegs
    apply List.map_fst_zip
    simp [fdSlopes_length, hlen]
  have hpair : (mkSegs knots values).Pairwise
      (fun p q : ℚ × ℚ × ℚ => p.1 < q.1) := by
    apply List.pairwise_map.mp
    rw [hmapfst]
    exact hs
  have h := evalSegs_node (mkSegs knots values) hpair i hms
  rw [mkSegs_get knots values hlen i hik hms] at h
  unfold spline1D
  exact h

/-- Two-dimensional node exactness of the modelled spline surface. -/
theorem spline2D_node (s : Spline2D)
    (hrows : s.grid.length = s.ys.length)
    (hcols : ∀ r ∈ s.grid, r.length = s.xs.length)
    (hxs : s.xs.Pairwise (· < ·)) (hys : s.ys.Pairwise (· < ·))
    (i j : ℕ) (hi : i < s.ys.length) (hj : j < s.xs.length) :
    s.ev (s.xs.getD j 0) (s.ys.getD i 0) = (s.grid.getD i []).getD j 0 := by
  unfold Spline2D.ev
  have higrid : i < s.grid.length := by omega
  have hmaplen :
      (s.grid.map fun row => spline1D s.xs row (s.xs.getD j 0)).length =
        s.ys.length := by
    simp [hrows]
  have houter := spline1D_node s.ys
    (s.grid.map fun row => spline1D s.xs row (s.xs.getD j 0)) hmaplen hys i hi
  rw [houter]
  have hmapi : i < (s.grid.map fun row =>
      spline1D s.xs row (s.xs.getD j 0)).length := by
    rw [hmaplen]; exact hi
  rw [List.getD_eq_getElem _ 0 hmapi, List.getElem_map,
    List.getD_eq_getElem s.grid [] higrid]
  exact spline1D_node s.xs (s.grid.get ⟨i, higrid⟩)
    (hcols _ (List.get_mem _ _ _)) hxs j hj

/-- C9: the torch setup is well defined exactly when each coordinate axis
has at least two entries; with fewer, the construction-time read of index 1
(or of the endpoints) fails, a precondition the spec does not state. -/
theorem c9_torch_min_size :
    ∀ (xs ys : List ℚ) (g : List (List ℚ)),
      (torchSetup xs ys g).isSome = true ↔
        2 ≤ xs.length ∧ 2 ≤ ys.length :=
  torchSetup_isSome_iff

/-- A successful torch setup determines the stored bounds and grid and
forces both axes to have at least two entries. -/
theorem torchSetup_fields (xs ys : List ℚ) (g : List (List ℚ))
    (ti : TorchInterp) (hset : torchSetup xs ys g = some ti) :
    xs.head? = some ti.xmin ∧ xs.getLast? = some ti.xmax ∧
    ys.head? = some ti.ymin ∧ ys.getLast? = some ti.ymax ∧
    ti.grid = g ∧ 2 ≤ xs.length ∧ 2 ≤ ys.length := by
  have hlen : 2 ≤ xs.length ∧ 2 ≤ ys.length := by
    refine (torchSetup_isSome_iff xs ys g).mp ?_
    rw [hset]
    rfl
  rcases h1 : xs.head? with _ | a <;>
    rcases h2 : xs.getLast? with _ | b <;>
    rcases h3 : ys.head? with _ | c <;>
    rcases h4 : ys.getLast? with _ | d <;>
    rcases h5 : xs[1]? with _ | e <;>
    rcases h6 : ys[1]? with _ | f <;>
    simp [torchSetup, h1, h2, h3, h4, h5, h6] at hset
  subst hset
  exact ⟨rfl, rfl, rfl, rfl, rfl, hlen.1, hlen.2⟩

/-- A reported head value as a defaulted index read. -/
theorem head?_getD (l : List ℚ) (v : ℚ) (h : l.head? = some v) :
    l.getD 0 0 = v := by
  cases l with
  | nil => exact Option.noConfusion h
  | cons a t =>
    simp only [List.head?_cons, Option.some.injEq] at h
    simp [h]

/-- A reported last value as a defaulted index read. -/
theorem getLast?_getD (l : List ℚ) (v : ℚ) (h : l.getLast? = some v) :
    l.getD (l.length - 1) 0 = v := by
  rw [List.getLast?_eq_getElem? l] at h
  obtain ⟨hlt, hv⟩ := List.getElem?_eq_some.mp h
  rw [List.getD_eq_getElem l 0 hlt]
  exact hv

/-- Bilinear corner-aligned sampling at a point whose unnormalized pixel
coordinates are the integers (j, i) returns the grid entry at row i,
column j. -/
theorem gridSampleBilinear_at_node (g : List (List ℚ)) (xn yn : ℚ)
    (i j : ℕ)
    (hW : (xn + 1) / 2 * (((g.headD []).length : ℚ) - 1) = (j : ℚ))
    (hH : (yn + 1) / 2 * ((g.length : ℚ) - 1) = (i : ℚ)) :
    gridSampleBilinear g xn yn = (g.getD i []).getD j 0 := by
  simp only [gridSampleBilinear]
  rw [hW, hH]
  rw [Int.floor_natCast, Int.floor_natCast]
  simp [getPix, Int.toNat_natCast]

/-- Under uniformly spaced axes, the torch strategy's min/max normalization
sends the j-th x node and i-th y node exactly to pixel coordinates (j, i),
so the bilinear sample returns the grid entry. -/
theorem torch_node_exact (xs ys : List ℚ) (g : List (List ℚ))
    (ti : TorchInterp) (hset : torchSetup xs ys g = some ti)
    (dx dy : ℚ) (hdx : 0 < dx) (hdy : 0 < dy)
    (hux : ∀ k, k < xs.length → xs.getD k 0 = xs.getD 0 0 + k * dx)
    (huy : ∀ k, k < ys.length → ys.getD k 0 = ys.getD 0 0 + k * dy)
    (hrows : g.length = ys.length)
    (hcols : ∀ r ∈ g, r.length = xs.length)
    (i j : ℕ) (hi : i < ys.length) (hj : j < xs.length) :
    torchHeight ti (xs.getD j 0) (ys.getD i 0) = (g.getD i []).getD j 0 := by
  obtain ⟨hh, hl, hyh, hyl, hgrid, hx2, hy2⟩ :=
    torchSetup_fields xs ys g ti hset
  have hxmin : ti.xmin = xs.getD 0 0 := (head?_getD xs ti.xmin hh).symm
  have hxmax : ti.xmax = xs.getD (xs.length - 1) 0 :=
    (getLast?_getD xs ti.xmax hl).symm
  have hymin : ti.ymin = ys.getD 0 0 := (head?_getD ys ti.ymin hyh).symm
  have hymax : ti.ymax = ys.getD (ys.length - 1) 0 :=
    (getLast?_getD ys ti.ymax hyl).symm
  have hW : (((g.headD []).length : ℕ) : ℚ) = ((xs.length : ℕ) : ℚ) := by
    cases g with
    | nil =>
      simp at hrows
      omega
    | cons r gr =>
      simp [hcols r (by simp)]
  have hH : ((g.length : ℕ) : ℚ) = ((ys.length : ℕ) : ℚ) := by
    rw [hrows]
  unfold torchHeight
  rw [hgrid]
  apply gridSampleBilinear_at_node
  · rw [hW, hxmin, hxmax, hux j hj, hux (xs.length - 1) (by omega),
      Nat.cast_sub (by omega : 1 ≤ xs.length), Nat.cast_one]
    have hden : xs.getD 0 0 + ((xs.length : ℚ) - 1) * dx - xs.getD 0 0 =
        ((xs.length : ℚ) - 1) * dx := by ring
    rw [hden]
    have hNx1 : ((xs.length : ℚ) - 1) ≠ 0 := by
      have h2 : (2 : ℚ) ≤ (xs.length : ℚ) := by exact_mod_cast hx2
      linarith
    have hdx0 : dx ≠ 0 := ne_of_gt hdx
    field_simp
    ring
  · rw [hH, hymin, hymax, huy i hi, huy (ys.length - 1) (by omega),
      Nat.cast_sub (by omega : 1 ≤ ys.length), Nat.cast_one]
    have hden : ys.getD 0 0 + ((ys.length : ℚ) - 1) * dy - ys.getD 0 0 =
        ((ys.length : ℚ) - 1) * dy := by ring
    rw [hden]
    have hNy1 : ((ys.length : ℚ) - 1) ≠ 0 := by
      have h2 : (2 : ℚ) ≤ (ys.length : ℚ) := by exact_mod_cast hy2
      linarith
    have hdy0 : dy ≠ 0 := ne_of_gt hdy
    field_simp
    ring

/-- C1 (amended): at every grid node the interpolated height equals the
stored grid value under the numpy/spline strategy for any strictly
increasing axes of matching shape; under the torch bilinear-sampling
strategy the same holds when each axis is additionally uniformly spaced
(with at least the two entries its construction requires). -/
theorem c1_node_exactness :
    (∀ (xs ys : List ℚ) (g : List (List ℚ)) (i j : ℕ),
      xs.Chain' (· < ·) → ys.Chain' (· < ·) →
      g.length = ys.length → (∀ r ∈ g, r.length = xs.length) →
      i < ys.length → j < xs.length →
      interpHeightAt .numpy xs ys g (xs.getD j 0) (ys.getD i 0) =
        some ((g.getD i []).getD j 0)) ∧
    (∀ (xs ys : List ℚ) (g : List (List ℚ)) (dx dy : ℚ) (i j : ℕ),
      0 < dx → 0 < dy →
      (∀ k, k < xs.length → xs.getD k 0 = xs.getD 0 0 + k * dx) →
      (∀ k, k < ys.length → ys.getD k 0 = ys.getD 0 0 + k * dy) →
      2 ≤ xs.length → 2 ≤ ys.length →
      g.length = ys.length → (∀ r ∈ g, r.length = xs.length) →
      i < ys.length → j < xs.length →
      interpHeightAt .torch xs ys g (xs.getD j 0) (ys.getD i 0) =
        some ((g.getD i []).getD j 0)) := by
  constructor
  · intro xs ys g i j hxc hyc hrows hcols hi hj
    unfold interpHeightAt mkGridInterpolator rectBivariateSplineInit
    rw [if_pos ⟨hrows, hcols⟩]
    exact congrArg some (spline2D_node ⟨xs, ys, g⟩ hrows hcols
      (List.chain'_iff_pairwise.mp hxc) (List.chain'_iff_pairwise.mp hyc)
      i j hi hj)
  · intro xs ys g dx dy i j hdx hdy hux huy hx2 hy2 hrows hcols hi hj
    rcases hset : torchSetup xs ys g with _ | ti
    · have hsome := (torchSetup_isSome_iff xs ys g).mpr ⟨hx2, hy2⟩
      rw [hset] at hsome
      exact absurd hsome (by simp)
    · unfold interpHeightAt mkGridInterpolator
      rw [hset]
      exact congrArg some (torch_node_exact xs ys g ti hset dx dy hdx hdy
        hux huy hrows hcols i j hi hj)

/-- Counterexample to C1 as stated: a strictly increasing but non-uniform
x axis [0, 1, 4].  At the node (x, y) = (x_coords[1], y_coords[0]) the grid
holds 10, but the torch strategy's min/max normalization sends x = 1 to
pixel coordinate 1/2 and the bilinear sample returns 5. -/
theorem c1_node_exactness_cex :
    ([0, 1, 4] : List ℚ).Chain' (· < ·) ∧
    ([0, 1] : List ℚ).Chain' (· < ·) ∧
    interpHeightAt .torch [0, 1, 4] [0, 1] [[0, 10, 20], [0, 0, 0]] 1 0 =
      some 5 ∧
    ((([[0, 10, 20], [0, 0, 0]] : List (List ℚ)).getD 0 []).getD 1 0
      = 10) ∧
    (5 : ℚ) ≠ 10 := by
  have hset : torchSetup [0, 1, 4] [0, 1] [[0, 10, 20], [0, 0, 0]] =
      some ⟨0, 4, 0, 1, 1 - 0, 1 - 0, [[0, 10, 20], [0, 0, 0]]⟩ := rfl
  refine ⟨by norm_num, by norm_num, ?_, by norm_num, by norm_num⟩
  unfold interpHeightAt mkGridInterpolator
  rw [hset]
  norm_num [interpHeight, torchHeight, gridSampleBilinear, getPix]

/-- Witness for C1 on a uniformly spaced 4x4 grid: the node at row 1,
column 2 holds 3 and both strategies reproduce it. -/
theorem c1_node_exactness_witness :
    interpHeightAt .numpy [0, 1, 2, 3] [0, 1, 2, 3]
      [[0, 1, 2, 3], [1, 2, 3, 4], [2, 3, 4, 5], [3, 4, 5, 6]] 2 1 =
      some 3 ∧
    interpHeightAt .torch [0, 1, 2, 3] [0, 1, 2, 3]
      [[0, 1, 2, 3], [1, 2, 3, 4], [2, 3, 4, 5], [3, 4, 5, 6]] 2 1 =
      some 3 := by
  have hcols : ∀ r ∈ ([[0, 1, 2, 3], [1, 2, 3, 4], [2, 3, 4, 5],
      [3, 4, 5, 6]] : List (List ℚ)), r.length = ([0, 1, 2, 3] : List ℚ).length := by
    intro r hr
    simp at hr
    rcases hr with rfl | rfl | rfl | rfl <;> rfl
  have hux : ∀ k, k < ([0, 1, 2, 3] : List ℚ).length →
      ([0, 1, 2, 3] : List ℚ).getD k 0 =
        ([0, 1, 2, 3] : List ℚ).getD 0 0 + k * 1 := by
    intro k hk
    simp at hk
    interval_cases k <;> norm_num
  constructor
  · have h := c1_node_exactness.1 [0, 1, 2, 3] [0, 1, 2, 3]
      [[0, 1, 2, 3], [1, 2, 3, 4], [2, 3, 4, 5], [3, 4, 5, 6]] 1 2
      (by norm_num) (by norm_num) (by norm_num) hcols
      (by norm_num) (by norm_num)
    norm_num at h
    exact h
  · have h := c1_node_exactness.2 [0, 1, 2, 3] [0, 1, 2, 3]
      [[0, 1, 2, 3], [1, 2, 3, 4], [2, 3, 4, 5], [3, 4, 5, 6]] 1 1 1 2
      (by norm_num) (by norm_num) hux hux
      (by norm_num) (by norm_num) (by norm_num) hcols
      (by norm_num) (by norm_num)
    norm_num at h
    exact h
